import Mathlib

/-!
Verification development for the vscode-phpstan extension
(calvinbaart/vscode-phpstan).

The analysed sources are src/src/phpstan.ts (scheduler, process handling,
output parser, configuration setters), src/src/utils.ts
(handleDiagnosticErrors, the diagnostic renderer), and the earlier revision
of the scheduler kept as src/unnamed/part_002.

JavaScript strings are modelled as lists of characters (Str); all string
operations used by the source (split, trim, substr, startsWith, indexOf,
join, Number coercion) are given executable definitions mirroring their
JS semantics on the inputs the extension handles (ASCII/BMP text; the
exotic corners of JS Number such as hex or exponent literals are outside
the modelled grammar and are noted where relevant).
-/

namespace VsPhpstan

/-- JS strings are modelled as lists of characters. -/
abbrev Str := List Char

/-- Whitespace class used by JS trim and the regex class backslash-s,
restricted to the ASCII whitespace characters that can occur in analyser
output: space, tab, newline, carriage return, vertical tab, form feed. -/
def wsChar (c : Char) : Bool :=
  c = ' ' || c = '\t' || c = '\n' || c = '\r' || c = Char.ofNat 11 || c = Char.ofNat 12

/-- JS String.prototype.trim: drop whitespace from both ends. -/
def jsTrim (s : Str) : Str :=
  ((s.dropWhile wsChar).reverse.dropWhile wsChar).reverse

/-- JS String.prototype.split with a one-character separator.
Mirrors JS semantics: splitting the empty string yields one empty field. -/
def jsSplitChar (sep : Char) : Str → List Str
  | [] => [[]]
  | c :: rest =>
    if c = sep then [] :: jsSplitChar sep rest
    else
      match jsSplitChar sep rest with
      | [] => [[c]]
      | h :: t => (c :: h) :: t

/-- JS Array.prototype.join with a one-character separator. -/
def joinSep (sep : Char) : List Str → Str
  | [] => []
  | [x] => x
  | x :: xs => x ++ sep :: joinSep sep xs

/-- JS String.prototype.startsWith: the first argument is a prefix of the
second. -/
def leadsWith : Str → Str → Bool
  | [], _ => true
  | _ :: _, [] => false
  | p :: ps, c :: cs => p = c && leadsWith ps cs

/-- JS String.prototype.indexOf(sub) succeeds (result not -1) exactly when
sub occurs as a contiguous substring; modelled as a scan over suffixes. -/
def hasSub (sub : Str) : Str → Bool
  | [] => leadsWith sub []
  | c :: cs => leadsWith sub (c :: cs) || hasSub sub cs

/-- Numeric value of a list of decimal digit characters. -/
def digitsVal : Str → ℕ
  | [] => 0
  | c :: cs => digitsVal cs + c.toNat % 48 * 10 ^ cs.length

/-- All characters are decimal digits. -/
def allDigits (s : Str) : Bool := s.all (fun c => c.isDigit)

/-- Unsigned decimal literal of JS: digits, optionally with a dot and a
fractional digit part; at least one digit overall. Returns the exact
rational value (none when the shape does not match). -/
def jsDecLit (s : Str) : Option ℚ :=
  match jsSplitChar '.' s with
  | [intDigits] =>
    if intDigits ≠ [] && allDigits intDigits then some (digitsVal intDigits) else none
  | [intDigits, fracDigits] =>
    if (intDigits ≠ [] || fracDigits ≠ []) && allDigits intDigits && allDigits fracDigits then
      some ((digitsVal intDigits : ℚ) + (digitsVal fracDigits : ℚ) / (10 ^ fracDigits.length : ℚ))
    else none
  | _ => none

/-- JS Number(string) coercion, on the grammar relevant to analyser output:
surrounding whitespace is ignored, the empty (or all-whitespace) string
converts to 0, an optional single sign precedes a decimal literal; every
other string converts to NaN, modelled as none. (Hex, binary, octal,
exponent and Infinity forms of JS are outside this grammar and are not
produced by the analyser's raw output.) -/
def jsNumber (s : Str) : Option ℚ :=
  match jsTrim s with
  | [] => some 0
  | '+' :: rest => jsDecLit rest
  | '-' :: rest => (jsDecLit rest).map (fun q => -q)
  | t => jsDecLit t

/-- Severity of a user-facing notification or diagnostic
(vscode DiagnosticSeverity / message kind). -/
inductive Sev where
  | err : Sev
  | warn : Sev
  | info : Sev
deriving DecidableEq, Repr

/-- ICheckResult from utils.ts: one finding, anchored to a file and line.
The line is a JS number; NaN never reaches a stored ICheckResult because
the parser filters it out, so the stored line is a rational. The optional
type field carries the notification severity used by the queued
placeholder (later utils revision). -/
structure ICheckResult where
  file : Str
  line : ℚ
  msg : Str
  type : Option Sev := none
deriving DecidableEq, Repr

/-- Assoc-list lookup modelling JS object property access obj[key]
(string-keyed objects preserve insertion order; first match wins, and
keys are unique by construction of setA). -/
def lookupA {V : Type} : List (Str × V) → Str → Option V
  | [], _ => none
  | (k, v) :: rest, key => if k = key then some v else lookupA rest key

/-- Assoc-list update modelling JS object property assignment obj[key] = v:
an existing key keeps its position, a new key is appended. -/
def setA {V : Type} : List (Str × V) → Str → V → List (Str × V)
  | [], key, v => [(key, v)]
  | (k, w) :: rest, key, v =>
    if k = key then (key, v) :: rest else (k, w) :: setA rest key v

/-- Assoc-list deletion modelling the JS delete operator on an object
property (removes every entry with the key; with unique keys, the one). -/
def delA {V : Type} : List (Str × V) → Str → List (Str × V)
  | [], _ => []
  | (k, w) :: rest, key => if k = key then delA rest key else (k, w) :: delA rest key

/-- One step of building the JS Map in handleDiagnosticErrors: append the
value to the key's group, creating the group at the end on first sight
(JS Map preserves key insertion order). -/
def appendAt {V : Type} : List (Str × List V) → Str → V → List (Str × List V)
  | [], key, v => [(key, [v])]
  | (k, vs) :: rest, key, v =>
    if k = key then (k, vs ++ [v]) :: rest else (k, vs) :: appendAt rest key v

/-- Grouping of keyed values in encounter order, as the forEach over errors
in handleDiagnosticErrors builds its diagnosticMap. -/
def groupIns {V : Type} (l : List (Str × V)) : List (Str × List V) :=
  l.foldl (fun m p => appendAt m p.1 p.2) []

/-- Model of a vscode TextDocument as the renderer and scheduler see it:
its file name (standing for both fileName and the canonical Uri, since
Uri.file(path).toString() is injective on the paths involved), its text as
a list of newline-free lines, its languageId, and the isDirty flag. -/
structure DocModel where
  fileName : Str
  lines : List Str
  languageId : Str
  isDirty : Bool
deriving DecidableEq, Repr

/-- One published vscode Diagnostic: a zero-based line (the source computes
error.line - 1 on the JS number directly, so it is kept as a rational),
start and end columns, the message and the severity. -/
structure Diagnostic where
  line0 : ℚ
  startColumn : ℕ
  endColumn : ℕ
  message : Str
  severity : Sev
deriving DecidableEq, Repr

/-- Text of the document line addressed by the zero-based JS index q, as
the renderer reads it: lineAt(q).range.end.character + 1 together with
getText clamps to exactly the full line text. In vscode a fractional,
negative or out-of-range index makes lineAt throw; the claims only
exercise in-range integer lines, and those cases are totalised to the
empty line here. -/
def lineTextAt (doc : DocModel) (q : ℚ) : Str :=
  if h : q.den = 1 ∧ 0 ≤ q.num ∧ q.num.toNat < doc.lines.length then
    doc.lines.get ⟨q.num.toNat, h.2.2⟩
  else []

/-- Capture groups of the JS regex exec of caret (backslash-s star) dot-star
(backslash-s star) dollar against a newline-free line: the first group
greedily takes the maximal whitespace prefix, after which the greedy
dot-star consumes the whole remainder (dot matches any non-newline
character, whitespace included), leaving the second group to match the
empty string at the end. The trailing capture is therefore always empty. -/
def regexGroups (text : Str) : Str × Str :=
  (text.takeWhile wsChar, [])

/-- Per-error body of the forEach in handleDiagnosticErrors
(src/src/utils.ts lines 13-37): find the first open document whose
canonical Uri matches the error's file; when found, compute the column
range from the regex groups over that line's text, otherwise fall back to
columns 0 to 1. Severity is always Error in this utils revision. -/
def diagFor (documents : List DocModel) (error : ICheckResult) : Diagnostic :=
  match documents.find? (fun doc => doc.fileName = error.file) with
  | some doc =>
    let text := lineTextAt doc (error.line - 1)
    let groups := regexGroups text
    { line0 := error.line - 1
      startColumn := groups.1.length
      endColumn := text.length - groups.2.length
      message := error.msg
      severity := Sev.err }
  | none =>
    { line0 := error.line - 1
      startColumn := 0
      endColumn := 1
      message := error.msg
      severity := Sev.err }

/-- handleDiagnosticErrors from src/src/utils.ts: clear the previous
diagnostic surface (the old collection is discarded entirely), build one
diagnostic per error grouped per canonical file in encounter order, and
publish one batch per file. The returned assoc list is the new content of
the diagnostic collection. -/
def handleDiagnosticErrors (documents : List DocModel) (errors : List ICheckResult)
    (_oldCollection : List (Str × List Diagnostic)) : List (Str × List Diagnostic) :=
  groupIns (errors.map (fun error => (error.file, diagFor documents error)))

/-- Tool tag prefixed to every message surfaced by the extension. -/
def phpstanTag : Str := "[phpstan] ".toList

/-- Substring of a phpstan message signalling the autoload failure case
(phpstan.ts line 330). -/
def autoloadSub : Str := "not found while trying to analyse it".toList

/-- Synthetic message substituted for the first autoload failure
(phpstan.ts line 335). -/
def autoloadReplacement : Str :=
  "File probably not autoloaded correctly, some analysis is unavailable.".toList

/-- Finding as built inside the parse map of the exit handler, before the
final filter: the line is none when Number produced NaN. -/
structure RawFinding where
  file : Str
  line : Option ℚ
  msg : Str
deriving DecidableEq, Repr

/-- Map over the colon-split output lines mirroring phpstan.ts lines
318-346, threading the autoloadError flag: read the line number with the
JS Number coercion, shift it off, remap an exact 0 to 1, rejoin the rest
with colons as the message; a message containing the autoload substring is
replaced (first occurrence) by the synthetic finding at line 1 or dropped
(every later occurrence, yielding null, modelled as none). -/
def parseMapFlag (fileName : Str) : Bool → List (List Str) → List (Option RawFinding)
  | _, [] => []
  | autoloadError, fields :: rest =>
    let line := jsNumber (fields.headD [])
    let shifted := fields.drop 1
    let line := if line = some 0 then some 1 else line
    let error := joinSep ':' shifted
    if hasSub autoloadSub error then
      if autoloadError then
        none :: parseMapFlag fileName true rest
      else
        some { file := fileName, line := some 1, msg := phpstanTag ++ autoloadReplacement }
          :: parseMapFlag fileName true rest
    else
      some { file := fileName, line := line, msg := phpstanTag ++ error }
        :: parseMapFlag fileName autoloadError rest

/-- Line preprocessing of the exit handler parse (phpstan.ts lines
313-316): split stdout on newlines, drop the analysed path plus one
character from each line (JS substr never fails, short lines become
empty), trim, and keep only non-empty remainders. -/
def parsedLines (filePath results : Str) : List Str :=
  (((jsSplitChar '\n' results).map
      (fun x => jsTrim (x.drop (filePath.length + 1)))).filter
    (fun x => x.length > 0))

/-- Full parse of a successful run's stdout (phpstan.ts lines 312-347):
preprocess the lines, split each on colons, run the flag-threaded map,
then apply the final filter (x not null and not isNaN(x.line)), yielding
the typed findings. Every finding is keyed to the submitted document's
fileName, never to the analysed path. -/
def parseOutput (fileName filePath results : Str) : List ICheckResult :=
  (parseMapFlag fileName false ((parsedLines filePath results).map (jsSplitChar ':'))).filterMap
    (fun entry =>
      match entry with
      | none => none
      | some r =>
        match r.line with
        | none => none
        | some l => some { file := r.file, line := l, msg := r.msg })

/-- Prefix announcing a tool-level warning line. -/
def warningMark : Str := "Warning:".toList

/-- Prefix announcing a tool-level fatal error line. -/
def fatalMark : Str := "Fatal error:".toList

/-- Classification of one tool-level stdout line (phpstan.ts lines
260-285): a Warning: prefix yields a warning with the prefix stripped and
trimmed, a Fatal error: prefix an error likewise, anything else an
informational message. -/
def classifyLine (x : Str) : Sev × Str :=
  if leadsWith warningMark x then (Sev.warn, jsTrim (x.drop warningMark.length))
  else if leadsWith fatalMark x then (Sev.err, jsTrim (x.drop fatalMark.length))
  else (Sev.info, jsTrim x)

/-- Tool-level lines of stdout for a run whose exit code is not 1
(phpstan.ts lines 256-285): split on newlines, trim, drop lines starting
with the exclamation marker and blank lines, classify the rest. -/
def toolLines (results : Str) : List (Sev × Str) :=
  (((jsSplitChar '\n' results).map jsTrim).filter
    (fun x => !(leadsWith ['!'] x) && (jsTrim x).length != 0)).map classifyLine

/-- State of the PHPStan class of the current revision
(src/src/phpstan.ts), restricted to the fields the claims are about.
The maps keyed by file name (current processes, errors, documents) are
insertion-ordered assoc lists, matching JS object semantics; notifications
records the showErrorMessage / showWarningMessage / showInformationMessage
calls in order; tempFiles records the temp snapshot files currently on
disk; diagnostics is the published diagnostic collection. -/
structure EngineState where
  binaryPath : Option Str
  enabled : Bool
  level : Str
  memoryLimit : Str
  options : List Str
  projectFile : Option Str
  excludeFiles : List Str
  numActive : ℤ
  numQueued : ℤ
  current : List Str
  errors : List (Str × List ICheckResult)
  documents : List (Str × DocModel)
  diagnostics : List (Str × List Diagnostic)
  notifications : List (Sev × Str)
  statusVisible : Bool
  tempFiles : List Str
deriving DecidableEq, Repr

/-- hideStatusBar (phpstan.ts lines 456-460): hide the status bar item when
no run is active and none is queued. -/
def hideStatusBar (st : EngineState) : EngineState :=
  if st.numActive = 0 ∧ st.numQueued = 0 then { st with statusVisible := false } else st

/-- Full text of the in-memory document buffer (TextDocument.getText). -/
def docText (doc : DocModel) : Str :=
  joinSep '\n' doc.lines

/-- Snapshot decision of the debounce timer callback (phpstan.ts lines
177-185): when the document is dirty, its buffer text is written to a
fresh temp file (returned as name and content) and that path is analysed;
otherwise no temp file is created and the on-disk path is analysed. The
first component is the created temp file, the second the analysed path. -/
def timerFire (doc : DocModel) (tmpName : Str) : Option (Str × Str) × Str :=
  if doc.isDirty then (some (tmpName, docText doc), tmpName)
  else (none, doc.fileName)

/-- Publishing tail of the exit handler (phpstan.ts lines 312-358): parse
stdout, replace this file's entry in the errors map and the documents map,
merge every tracked file's findings (Object.values preserves insertion
order, concat flattens), clear and rebuild the diagnostic collection
through handleDiagnosticErrors, and hide the status bar if idle. -/
def publishResults (doc : DocModel) (filePath results : Str) (st : EngineState) : EngineState :=
  let data := parseOutput doc.fileName filePath results
  let errs := setA st.errors doc.fileName data
  let docs := setA st.documents doc.fileName doc
  let merged := (errs.map Prod.snd).flatten
  let documentsList := docs.map Prod.snd
  let diag := handleDiagnosticErrors documentsList merged st.diagnostics
  hideStatusBar { st with errors := errs, documents := docs, diagnostics := diag }

/-- Exit handler of the spawned process (phpstan.ts lines 248-359):
decrement the active counter, remove the temp snapshot file if one was
created (unconditionally, before any branch on the exit code), then: for
an exit code other than 1 (including null for a killed process), surface
every non-blank stdout line not starting with the exclamation marker as a
notification classified by its prefix, drop the process entry, hide the
status bar, and stop if any such line existed; otherwise fall through to
parsing and publishing. -/
def exitHandler (doc : DocModel) (filePath : Str) (tempFile : Option (Str × Str))
    (code : Option ℤ) (results : Str) (st : EngineState) : EngineState :=
  let st := { st with numActive := st.numActive - 1 }
  let st :=
    match tempFile with
    | some t => { st with tempFiles := st.tempFiles.erase t.1 }
    | none => st
  if code ≠ some 1 then
    let data := toolLines results
    let st :=
      { st with
        notifications :=
          st.notifications ++ data.map (fun (p : Sev × Str) => (p.1, phpstanTag ++ p.2)) }
    let st := hideStatusBar { st with current := st.current.erase doc.fileName }
    if data.length > 0 then st
    else publishResults doc filePath results st
  else publishResults doc filePath results st

/-- Notification text shared by the error handler and the path setter. -/
def pathMissingMsg : Str :=
  "[phpstan] Failed to find phpstan, the given path doesn\x27t exist.".toList

/-- Error-event handler of the spawned process (phpstan.ts lines 237-243):
when the error message mentions ENOENT, surface an error notification and
clear the resolved binary path; nothing else is touched - in particular
the active-run counter is left as it is. -/
def onProcessError (errMessage : Str) (st : EngineState) : EngineState :=
  if hasSub ("ENOENT").toList errMessage then
    { st with
      notifications := st.notifications ++ [(Sev.err, pathMissingMsg)]
      binaryPath := none }
  else st

/-- Filesystem environment consulted by the path setter: existence and
executability probes (fs.existsSync, fs.accessSync with X_OK), and the
first existing executable candidate that findPHPStan would discover (none
when the search finds nothing and leaves the binary path as it was). -/
structure FsEnv where
  pathExists : Str → Bool
  executableOk : Str → Bool
  discovered : Option Str

/-- findPHPStan (phpstan.ts lines 76-112): assign the first discovered
candidate to the binary path, or leave it unchanged when none is found. -/
def findPHPStan (env : FsEnv) (binaryPath : Option Str) : Option Str :=
  match env.discovered with
  | some p => some p
  | none => binaryPath

/-- Notification texts of the setters. -/
def disabledMsg : Str :=
  "[phpstan] Failed to find phpstan, phpstan will be disabled.".toList

/-- Notification shown when the configured path is not executable. -/
def notExecutableMsg : Str :=
  "[phpstan] Failed to find phpstan, the given path is not executable.".toList

/-- Path setter of the current revision (phpstan.ts lines 508-535): assign
the value, rediscover when null, complain when still unresolved, drop a
configured path that does not exist, then drop one that is not executable
(a thrown accessSync, including the one on a null path, is caught and
reported). The cached per-file results are not touched. -/
def setPath (env : FsEnv) (val : Option Str) (st : EngineState) : EngineState :=
  let st := { st with binaryPath := val }
  let st :=
    if st.binaryPath = none then { st with binaryPath := findPHPStan env st.binaryPath } else st
  let st :=
    if st.binaryPath = none then
      { st with notifications := st.notifications ++ [(Sev.err, disabledMsg)] }
    else st
  let st :=
    if val.isSome && (match st.binaryPath with
        | some p => !env.pathExists p
        | none => true) then
      { st with
        notifications := st.notifications ++ [(Sev.err, pathMissingMsg)]
        binaryPath := none }
    else st
  if val.isSome then
    if (match st.binaryPath with
        | some p => env.executableOk p
        | none => false) then st
    else
      { st with
        notifications := st.notifications ++ [(Sev.err, notExecutableMsg)]
        binaryPath := none }
  else st

/-- Level setter of the current revision (phpstan.ts lines 537-539). -/
def setLevel (val : Str) (st : EngineState) : EngineState :=
  { st with level := val }

/-- Memory-limit setter of the current revision (phpstan.ts lines 541-543). -/
def setMemoryLimit (val : Str) (st : EngineState) : EngineState :=
  { st with memoryLimit := val }

/-- Options setter of the current revision (phpstan.ts lines 545-547). -/
def setOptions (val : List Str) (st : EngineState) : EngineState :=
  { st with options := val }

/-- Project-file setter of the current revision (phpstan.ts lines 549-551). -/
def setProjectFile (val : Option Str) (st : EngineState) : EngineState :=
  { st with projectFile := val }

/-- Exclude-files setter of the current revision (phpstan.ts lines 553-555). -/
def setExcludeFiles (val : List Str) (st : EngineState) : EngineState :=
  { st with excludeFiles := val }

/-- Per-file cached result record of the earlier revision
(src/unnamed/part_002 lines 9-13): the document version it was computed
for, plus its findings. -/
structure OldResultData where
  version : ℤ
  results : List ICheckResult
deriving DecidableEq, Repr

/-- State of the earlier PHPStan revision (src/unnamed/part_002),
restricted to the fields its setters touch. -/
structure OldState where
  binaryPath : Option Str
  enabled : Bool
  level : Str
  memoryLimit : Str
  options : List Str
  projectFile : Option Str
  results : List (Str × OldResultData)
  notifications : List (Sev × Str)
deriving DecidableEq, Repr

/-- Path setter of the earlier revision (part_002 lines 335-355): assign,
reset the in-memory cached results, rediscover when null, complain when
unresolved or nonexistent. -/
def oldSetPath (env : FsEnv) (val : Option Str) (st : OldState) : OldState :=
  let st := { st with binaryPath := val, results := [] }
  let st :=
    if st.binaryPath = none then { st with binaryPath := findPHPStan env st.binaryPath } else st
  let st :=
    if st.binaryPath = none then
      { st with notifications := st.notifications ++ [(Sev.err, disabledMsg)] }
    else st
  if val.isSome && (match st.binaryPath with
      | some p => !env.pathExists p
      | none => true) then
    { st with
      notifications := st.notifications ++ [(Sev.err, pathMissingMsg)]
      binaryPath := none }
  else st

/-- Level setter of the earlier revision (part_002 lines 357-363): assigns
and resets the in-memory cached results. -/
def oldSetLevel (val : Str) (st : OldState) : OldState :=
  { st with level := val, results := [] }

/-- Memory-limit setter of the earlier revision (part_002 lines 365-368):
assigns without touching the cached results. -/
def oldSetMemoryLimit (val : Str) (st : OldState) : OldState :=
  { st with memoryLimit := val }

/-- Options setter of the earlier revision (part_002 lines 370-376):
assigns and resets the in-memory cached results. -/
def oldSetOptions (val : List Str) (st : OldState) : OldState :=
  { st with options := val, results := [] }

/-- Project-file setter of the earlier revision (part_002 lines 378-384):
assigns and resets the in-memory cached results. -/
def oldSetProjectFile (val : Option Str) (st : OldState) : OldState :=
  { st with projectFile := val, results := [] }

/-- Shared lock state of the scheduler: the active-run counter, the files
whose timer callbacks are waiting in the admission loop, and the files
whose analyser process has been spawned and has not yet exited. Files are
abstracted to natural-number identities. -/
structure LockState where
  numActive : ℤ
  waiting : List ℕ
  running : List ℕ
deriving DecidableEq, Repr

/-- Predicate passed to waitFor (phpstan.ts lines 201-208): fail while the
active counter is nonzero; otherwise increment it, claiming the lock, and
succeed. Returns the poll outcome together with the updated state. -/
def acquireTest (s : LockState) : Bool × LockState :=
  if s.numActive ≠ 0 then (false, s)
  else (true, { s with numActive := s.numActive + 1 })

/-- Modelled from the spec: the waitFor admission loop is imported by
phpstan.ts from ./utils but the revision of utils.ts defining it is not in
the repository snapshot; per the spec (section 4.1 step 9 and section 5)
it polls the predicate at a fixed interval on the single event-processing
thread until the predicate succeeds, each poll running the predicate
atomically. The transitions are: a timer callback joins the waiters; a
waiter polls acquireTest, and on success is spawned (enters running); a
running process exits, its exit handler decrementing the counter
(phpstan.ts line 249). -/
inductive LockStep : LockState → LockState → Prop where
  | submit (f : ℕ) (s : LockState) :
      LockStep s { s with waiting := s.waiting ++ [f] }
  | pollFail (f : ℕ) (s : LockState) (hf : f ∈ s.waiting)
      (h : (acquireTest s).1 = false) : LockStep s s
  | pollOk (f : ℕ) (s : LockState) (hf : f ∈ s.waiting)
      (h : (acquireTest s).1 = true) :
      LockStep s
        { (acquireTest s).2 with
          waiting := s.waiting.erase f
          running := s.running ++ [f] }
  | procExit (f : ℕ) (s : LockState) (hf : f ∈ s.running) :
      LockStep s
        { s with numActive := s.numActive - 1, running := s.running.erase f }

/-- Initial lock state of a fresh PHPStan instance (constructor line 56):
counter zero, nobody waiting, nothing running. -/
def lockInit : LockState := { numActive := 0, waiting := [], running := [] }

/-- States the scheduler can reach from the initial state. -/
def LockReachable (s : LockState) : Prop :=
  Relation.ReflTransGen LockStep lockInit s

/-- Debounce events: a submission of a file (updateDocument reaching the
timer logic) or the firing of the timer with a given identity for a file. -/
inductive DebEv where
  | subEv (f : Str) : DebEv
  | fireEv (f : Str) (t : ℕ) : DebEv
deriving DecidableEq, Repr

/-- Debounce state: the pending timer per file (at most one entry per file,
as assignment overwrites), the identities of cleared timers, the log of
timers that fired, and a counter producing fresh timer identities. -/
structure DebState where
  pending : List (Str × ℕ)
  cancelled : List ℕ
  fired : List (Str × ℕ)
  nextId : ℕ
deriving DecidableEq, Repr

/-- Debounce part of updateDocument (phpstan.ts lines 170-174): when a
timer is already pending for the file, clearTimeout cancels it; then a
fresh timer is stored under the file's key. -/
def submitDeb (f : Str) (s : DebState) : DebState :=
  match lookupA s.pending f with
  | some t =>
    { s with
      cancelled := s.cancelled ++ [t]
      pending := setA s.pending f s.nextId
      nextId := s.nextId + 1 }
  | none =>
    { s with
      pending := setA s.pending f s.nextId
      nextId := s.nextId + 1 }

/-- Modelled from the spec: setTimeout / clearTimeout semantics (the timer
runtime is external to the repository). A timer callback fires only if it
is still the pending timer for its file and was never cleared (spec
section 4.1 step 6: only the timer that survives un-cancelled actually
fires); firing removes the pending entry (phpstan.ts line 175) and spawns
the analyser run, logged in fired. Submissions always proceed. -/
def execDeb (s : DebState) : DebEv → Option DebState
  | DebEv.subEv f => some (submitDeb f s)
  | DebEv.fireEv f t =>
    if lookupA s.pending f = some t ∧ t ∉ s.cancelled then
      some
        { s with
          pending := delA s.pending f
          fired := s.fired ++ [(f, t)] }
    else none

/-- Run of a list of debounce events. -/
def execDebList (s : DebState) : List DebEv → Option DebState
  | [] => some s
  | e :: es =>
    match execDeb s e with
    | some s' => execDebList s' es
    | none => none

/-- Number of analyser invocations for a file in an event list: the fire
events of that file that actually executed. -/
def firesOf (f : Str) (es : List DebEv) : ℕ :=
  es.countP (fun e =>
    match e with
    | DebEv.fireEv g _ => g = f
    | DebEv.subEv _ => false)

/-- True when the event list re-submits the file. -/
def resubmits (f : Str) (es : List DebEv) : Prop :=
  DebEv.subEv f ∈ es

/-- Whether a file has a live (pending and never cleared) timer: 1 when its
pending timer exists and was not cancelled, else 0. Used as the bound on
how many analyser invocations the file can still trigger. -/
def activeTimer (f : Str) (s : DebState) : ℕ :=
  match lookupA s.pending f with
  | some t => if t ∈ s.cancelled then 0 else 1
  | none => 0

/-- Number of trailing whitespace characters of a line. This is the
quantity the claim says the renderer subtracts from the line length for
the end column; it is defined from the spec's words, for comparison with
the code's regexGroups, whose trailing capture is always empty. -/
def trailingWsCount (s : Str) : ℕ :=
  (s.reverse.takeWhile wsChar).length

/-- Concrete file path used by witnesses and counterexamples. -/
def sampleFile : Str := "/ws/a.php".toList

/-- Concrete cached finding used by witnesses and counterexamples. -/
def sampleFinding : ICheckResult :=
  { file := sampleFile, line := 3, msg := "[phpstan] x".toList }

/-- Concrete engine state with one active run and one cached result. -/
def sampleState : EngineState :=
  { binaryPath := some ("/usr/bin/phpstan").toList
    enabled := true
    level := "max".toList
    memoryLimit := "2048M".toList
    options := []
    projectFile := none
    excludeFiles := []
    numActive := 1
    numQueued := 0
    current := [sampleFile]
    errors := [(sampleFile, [sampleFinding])]
    documents := []
    diagnostics := []
    notifications := []
    statusVisible := true
    tempFiles := [] }

/-- Concrete line text with both leading and trailing whitespace. -/
def demoLine : Str := "  foo  ".toList

/-- Concrete open document whose first line is demoLine. -/
def demoDoc : DocModel :=
  { fileName := sampleFile, lines := [demoLine], languageId := "php".toList, isDirty := false }

/-- Concrete finding at line 1 of the demo document. -/
def demoErr : ICheckResult :=
  { file := sampleFile, line := 1, msg := "[phpstan] x".toList }

/-- Concrete lock state reached after one admission: one active run. -/
def lockDemo : LockState := { numActive := 1, waiting := [], running := [0] }

/-- Empty debounce state. -/
def debEmpty : DebState := { pending := [], cancelled := [], fired := [], nextId := 0 }

/-- Concrete temp snapshot path. -/
def tmpDemo : Str := "/tmp/snap1".toList

/-- Concrete dirty document (unsaved modifications). -/
def demoDirtyDoc : DocModel :=
  { fileName := sampleFile
    lines := ["<?php".toList, "echo 1;".toList]
    languageId := "php".toList
    isDirty := true }

/-- Concrete spawn-failure message carrying ENOENT. -/
def enoentDemo : Str := "spawn /usr/bin/phpstan ENOENT".toList

/-- Concrete tool-level stdout of a crashed run (spec scenario). -/
def fatalDemo : Str := "Fatal error: Allowed memory size exhausted".toList

/-! Helper lemmas about the assoc-list operations. -/

theorem lookupA_setA_self {V : Type} (m : List (Str × V)) (k : Str) (v : V) :
    lookupA (setA m k v) k = some v := by
  induction m with
  | nil => simp [setA, lookupA]
  | cons p rest ih =>
    obtain ⟨k', w⟩ := p
    by_cases h : k' = k
    · simp [setA, h, lookupA]
    · simp [setA, h, lookupA, ih]

theorem lookupA_setA_ne {V : Type} (m : List (Str × V)) (k k' : Str) (v : V)
    (h : k' ≠ k) : lookupA (setA m k v) k' = lookupA m k' := by
  induction m with
  | nil => simp [setA, lookupA, if_neg (Ne.symm h)]
  | cons p rest ih =>
    obtain ⟨k0, w⟩ := p
    by_cases h0 : k0 = k
    · subst h0
      simp only [setA, if_pos rfl, lookupA, if_neg (Ne.symm h)]
    · simp only [setA, if_neg h0, lookupA]
      by_cases h1 : k0 = k'
      · simp [h1]
      · simp [h1, ih]

theorem lookupA_delA_self {V : Type} (m : List (Str × V)) (k : Str) :
    lookupA (delA m k) k = none := by
  induction m with
  | nil => simp [delA, lookupA]
  | cons p rest ih =>
    obtain ⟨k0, w⟩ := p
    by_cases h0 : k0 = k
    · simp [delA, h0, ih]
    · simp [delA, h0, lookupA, ih]

theorem lookupA_delA_ne {V : Type} (m : List (Str × V)) (k k' : Str)
    (h : k' ≠ k) : lookupA (delA m k) k' = lookupA m k' := by
  induction m with
  | nil => simp [delA]
  | cons p rest ih =>
    obtain ⟨k0, w⟩ := p
    by_cases h0 : k0 = k
    · subst h0
      rw [delA, if_pos rfl, ih, lookupA, if_neg (Ne.symm h)]
    · simp only [delA, if_neg h0, lookupA]
      by_cases h1 : k0 = k'
      · simp [h1]
      · simp [h1, ih]

theorem lookupA_appendAt_ne {V : Type} (m : List (Str × List V)) (k k' : Str) (v : V)
    (h : k' ≠ k) : lookupA (appendAt m k v) k' = lookupA m k' := by
  induction m with
  | nil => simp [appendAt, lookupA, if_neg (Ne.symm h)]
  | cons p rest ih =>
    obtain ⟨k0, vs⟩ := p
    by_cases h0 : k0 = k
    · subst h0
      simp only [appendAt, if_pos rfl, lookupA, if_neg (Ne.symm h)]
    · simp only [appendAt, if_neg h0, lookupA]
      by_cases h1 : k0 = k'
      · simp [h1]
      · simp [h1, ih]

theorem lookupA_groupIns_aux {V : Type} (l : List (Str × V)) (k : Str)
    (init : List (Str × List V)) (hinit : lookupA init k = none)
    (h : ∀ p ∈ l, p.1 ≠ k) :
    lookupA (l.foldl (fun m p => appendAt m p.1 p.2) init) k = none := by
  induction l generalizing init with
  | nil => simpa using hinit
  | cons p rest ih =>
    simp only [List.foldl_cons]
    refine ih _ ?_ (fun q hq => h q (List.mem_cons_of_mem _ hq))
    rw [lookupA_appendAt_ne _ _ _ _ (Ne.symm (h p (List.mem_cons_self _ _)))]
    exact hinit

theorem lookupA_groupIns_none {V : Type} (l : List (Str × V)) (k : Str)
    (h : ∀ p ∈ l, p.1 ≠ k) : lookupA (groupIns l) k = none := by
  unfold groupIns
  exact lookupA_groupIns_aux l k [] rfl h

/-! Helper lemmas about the JS string operations. -/

theorem jsSplitChar_ne_nil (sep : Char) (s : Str) : jsSplitChar sep s ≠ [] := by
  induction s with
  | nil => simp [jsSplitChar]
  | cons c rest ih =>
    simp only [jsSplitChar]
    by_cases h : c = sep
    · simp [h]
    · simp only [if_neg h]
      cases hsp : jsSplitChar sep rest with
      | nil => exact absurd hsp ih
      | cons a t => simp

theorem jsSplitChar_no_sep {sep : Char} {s : Str} (h : sep ∉ s) :
    jsSplitChar sep s = [s] := by
  induction s with
  | nil => simp [jsSplitChar]
  | cons c rest ih =>
    have hc : c ≠ sep := fun hh => h (hh ▸ List.mem_cons_self _ _)
    have hrest : sep ∉ rest := fun hh => h (List.mem_cons_of_mem _ hh)
    simp [jsSplitChar, hc, ih hrest]

theorem jsSplitChar_append {sep : Char} {a b : Str} (h : sep ∉ a) :
    jsSplitChar sep (a ++ sep :: b) = a :: jsSplitChar sep b := by
  induction a with
  | nil => simp [jsSplitChar]
  | cons c rest ih =>
    have hc : c ≠ sep := fun hh => h (hh ▸ List.mem_cons_self _ _)
    have hrest : sep ∉ rest := fun hh => h (List.mem_cons_of_mem _ hh)
    simp only [List.cons_append, jsSplitChar, if_neg hc, List.append_eq]
    rw [ih hrest]

theorem joinSep_jsSplitChar (sep : Char) (s : Str) :
    joinSep sep (jsSplitChar sep s) = s := by
  induction s with
  | nil => simp [jsSplitChar, joinSep]
  | cons c rest ih =>
    simp only [jsSplitChar]
    by_cases h : c = sep
    · simp only [if_pos h]
      cases hsp : jsSplitChar sep rest with
      | nil => exact absurd hsp (jsSplitChar_ne_nil sep rest)
      | cons a t =>
        rw [hsp] at ih
        simp [joinSep, h, ih]
    · simp only [if_neg h]
      cases hsp : jsSplitChar sep rest with
      | nil => exact absurd hsp (jsSplitChar_ne_nil sep rest)
      | cons a t =>
        rw [hsp] at ih
        cases t with
        | nil =>
          simp only [joinSep] at ih
          simp [joinSep, ih]
        | cons t1 t2 =>
          simp only [joinSep] at ih
          simp [joinSep, ih]

theorem drop_len_succ (a : Str) (c : Char) (b : Str) :
    (a ++ c :: b).drop (a.length + 1) = b := by
  have : a ++ c :: b = (a ++ [c]) ++ b := by simp
  rw [this]
  have hlen : (a ++ [c]).length = a.length + 1 := by simp
  rw [← hlen, List.drop_left]

/-! Helper lemmas about the engine-state transformers. -/

theorem hideStatusBar_errors (st : EngineState) :
    (hideStatusBar st).errors = st.errors := by
  unfold hideStatusBar; split <;> rfl

theorem hideStatusBar_diagnostics (st : EngineState) :
    (hideStatusBar st).diagnostics = st.diagnostics := by
  unfold hideStatusBar; split <;> rfl

theorem hideStatusBar_notifications (st : EngineState) :
    (hideStatusBar st).notifications = st.notifications := by
  unfold hideStatusBar; split <;> rfl

theorem hideStatusBar_tempFiles (st : EngineState) :
    (hideStatusBar st).tempFiles = st.tempFiles := by
  unfold hideStatusBar; split <;> rfl

theorem hideStatusBar_numActive (st : EngineState) :
    (hideStatusBar st).numActive = st.numActive := by
  unfold hideStatusBar; split <;> rfl

theorem publishResults_tempFiles (doc : DocModel) (filePath results : Str)
    (st : EngineState) : (publishResults doc filePath results st).tempFiles = st.tempFiles := by
  unfold publishResults
  rw [hideStatusBar_tempFiles]

theorem publishResults_numActive (doc : DocModel) (filePath results : Str)
    (st : EngineState) : (publishResults doc filePath results st).numActive = st.numActive := by
  unfold publishResults
  rw [hideStatusBar_numActive]

theorem publishResults_errors (doc : DocModel) (filePath results : Str)
    (st : EngineState) :
    (publishResults doc filePath results st).errors =
      setA st.errors doc.fileName (parseOutput doc.fileName filePath results) := by
  unfold publishResults
  rw [hideStatusBar_errors]

theorem exitHandler_numActive (doc : DocModel) (filePath : Str)
    (tempFile : Option (Str × Str)) (code : Option ℤ) (results : Str) (st : EngineState) :
    (exitHandler doc filePath tempFile code results st).numActive = st.numActive - 1 := by
  cases tempFile with
  | none =>
    simp only [exitHandler]
    split
    · split
      · rw [hideStatusBar_numActive]
      · rw [publishResults_numActive, hideStatusBar_numActive]
    · rw [publishResults_numActive]
  | some t =>
    simp only [exitHandler]
    split
    · split
      · rw [hideStatusBar_numActive]
      · rw [publishResults_numActive, hideStatusBar_numActive]
    · rw [publishResults_numActive]

theorem exitHandler_tempFiles (doc : DocModel) (filePath : Str)
    (name content : Str) (code : Option ℤ) (results : Str) (st : EngineState) :
    (exitHandler doc filePath (some (name, content)) code results st).tempFiles =
      st.tempFiles.erase name := by
  simp only [exitHandler]
  split
  · split
    · rw [hideStatusBar_tempFiles]
    · rw [publishResults_tempFiles, hideStatusBar_tempFiles]
  · rw [publishResults_tempFiles]

/-- Every finding produced by the parse map is keyed to the submitted
document's file name. -/
theorem parseMapFlag_file (fileName : Str) (flag : Bool) (xs : List (List Str)) :
    ∀ o ∈ parseMapFlag fileName flag xs, ∀ r, o = some r → r.file = fileName := by
  induction xs generalizing flag with
  | nil => simp [parseMapFlag]
  | cons fields rest ih =>
    intro o ho r hr
    simp only [parseMapFlag] at ho
    split at ho
    · split at ho
      · rcases List.mem_cons.mp ho with h | h
        · subst h
          cases hr
        · exact ih true o h r hr
      · rcases List.mem_cons.mp ho with h | h
        · subst h
          cases hr
          rfl
        · exact ih true o h r hr
    · rcases List.mem_cons.mp ho with h | h
      · subst h
        cases hr
        rfl
      · exact ih flag o h r hr

theorem parseOutput_file (fileName filePath results : Str) :
    ∀ r ∈ parseOutput fileName filePath results, r.file = fileName := by
  intro r hr
  unfold parseOutput at hr
  rw [List.mem_filterMap] at hr
  obtain ⟨o, ho, heq⟩ := hr
  cases o with
  | none => cases heq
  | some raw =>
    have hfile := parseMapFlag_file fileName false _ (some raw) ho raw rfl
    dsimp only at heq
    cases hl : raw.line with
    | none =>
      rw [hl] at heq
      cases heq
    | some l =>
      rw [hl] at heq
      dsimp only at heq
      injection heq with h
      subst h
      exact hfile

theorem exitHandler_tempFiles_none (doc : DocModel) (filePath : Str)
    (code : Option ℤ) (results : Str) (st : EngineState) :
    (exitHandler doc filePath none code results st).tempFiles = st.tempFiles := by
  simp only [exitHandler]
  split
  · split
    · rw [hideStatusBar_tempFiles]
    · rw [publishResults_tempFiles, hideStatusBar_tempFiles]
  · rw [publishResults_tempFiles]

/-- C7: when the debounce timer fires for a file, a dirty document's
in-memory text is snapshotted into the fresh temporary file and that path
is analysed; a clean document is analysed at its on-disk path with no
temporary file; and on process exit the temporary snapshot file, when one
was created, is deleted for every exit code alike (and no deletion happens
when none was created). -/
theorem c7_snapshot_and_cleanup :
    ∀ (doc : DocModel) (tmpName filePath : Str) (code : Option ℤ)
      (results content : Str) (st : EngineState),
      (doc.isDirty = true →
        timerFire doc tmpName = (some (tmpName, docText doc), tmpName)) ∧
      (doc.isDirty = false →
        timerFire doc tmpName = (none, doc.fileName)) ∧
      (exitHandler doc filePath (some (tmpName, content)) code results st).tempFiles =
        st.tempFiles.erase tmpName ∧
      (exitHandler doc filePath none code results st).tempFiles = st.tempFiles := by
  intro doc tmpName filePath code results content st
  refine ⟨?_, ?_, ?_, ?_⟩
  · intro h
    simp [timerFire, h]
  · intro h
    simp [timerFire, h]
  · exact exitHandler_tempFiles doc filePath tmpName content code results st
  · exact exitHandler_tempFiles_none doc filePath code results st

/-- C7 witness: concrete dirty and clean documents, and concrete deletion
of a snapshot after an exit with code 255. -/
theorem c7_witness :
    timerFire demoDirtyDoc tmpDemo = (some (tmpDemo, docText demoDirtyDoc), tmpDemo) ∧
    timerFire demoDoc tmpDemo = (none, demoDoc.fileName) ∧
    (exitHandler demoDoc sampleFile (some (tmpDemo, docText demoDirtyDoc)) (some 255)
        fatalDemo sampleState).tempFiles = sampleState.tempFiles.erase tmpDemo := by
  refine ⟨?_, ?_, ?_⟩
  · exact (c7_snapshot_and_cleanup demoDirtyDoc tmpDemo sampleFile (some 255) fatalDemo
      (docText demoDirtyDoc) sampleState).1 rfl
  · exact (c7_snapshot_and_cleanup demoDoc tmpDemo sampleFile (some 255) fatalDemo
      (docText demoDirtyDoc) sampleState).2.1 rfl
  · exact (c7_snapshot_and_cleanup demoDoc tmpDemo sampleFile (some 255) fatalDemo
      (docText demoDirtyDoc) sampleState).2.2.1

/-- C5 counterexample: in the current revision, setting the level leaves a
nonempty cached result map untouched, refuting the claim that the level
setter clears all cached ResultSets. -/
theorem c5_counterexample :
    (setLevel ("5").toList sampleState).errors = [(sampleFile, [sampleFinding])] ∧
    [(sampleFile, [sampleFinding])] ≠ ([] : List (Str × List ICheckResult)) := by
  exact ⟨rfl, by simp⟩

/-- C5 amended: in the current revision no configuration setter touches the
cached per-file results (path, level, memory limit, options, project file
and exclude patterns all leave the errors map unchanged); in the earlier
revision, the path, level, options and project-file setters reset the
cached results to empty while the memory-limit setter leaves them
unchanged (that revision has no exclude-patterns setter). -/
theorem c5_setter_invalidation :
    (∀ (env : FsEnv) (val : Option Str) (st : EngineState),
      (setPath env val st).errors = st.errors) ∧
    (∀ (val : Str) (st : EngineState), (setLevel val st).errors = st.errors) ∧
    (∀ (val : Str) (st : EngineState), (setMemoryLimit val st).errors = st.errors) ∧
    (∀ (val : List Str) (st : EngineState), (setOptions val st).errors = st.errors) ∧
    (∀ (val : Option Str) (st : EngineState), (setProjectFile val st).errors = st.errors) ∧
    (∀ (val : List Str) (st : EngineState), (setExcludeFiles val st).errors = st.errors) ∧
    (∀ (env : FsEnv) (val : Option Str) (st : OldState), (oldSetPath env val st).results = []) ∧
    (∀ (val : Str) (st : OldState), (oldSetLevel val st).results = []) ∧
    (∀ (val : Str) (st : OldState), (oldSetMemoryLimit val st).results = st.results) ∧
    (∀ (val : List Str) (st : OldState), (oldSetOptions val st).results = []) ∧
    (∀ (val : Option Str) (st : OldState), (oldSetProjectFile val st).results = []) := by
  refine ⟨?_, ?_, ?_, ?_, ?_, ?_, ?_, ?_, ?_, ?_, ?_⟩
  · intro env val st
    simp only [setPath]
    repeat' split
    all_goals rfl
  · intro val st; rfl
  · intro val st; rfl
  · intro val st; rfl
  · intro val st; rfl
  · intro val st; rfl
  · intro env val st
    simp only [oldSetPath]
    repeat' split
    all_goals rfl
  · intro val st; rfl
  · intro val st; rfl
  · intro val st; rfl
  · intro val st; rfl

/-- C4 counterexample: the process-error handler leaves the active-run
counter untouched, so after an ENOENT error in a state with one active
run, the counter is still 1 and the lock-acquisition predicate still
fails; the claimed release of the GlobalRunLock does not happen in the
error handler. -/
theorem c4_counterexample :
    (onProcessError enoentDemo sampleState).numActive = 1 ∧
    (acquireTest
        { numActive := (onProcessError enoentDemo sampleState).numActive
          waiting := [1]
          running := [] }).1 = false := by
  exact ⟨rfl, rfl⟩

/-- C4 amended: on a process error event the handler surfaces the
user-facing error message and clears the resolved binary path whenever the
message mentions ENOENT, but it does not modify the active-run counter (or
the queued counter); the counter is decremented only by the exit handler,
so the lock is released only if and when the exit event fires. -/
theorem c4_error_handler_behaviour :
    ∀ (msg : Str) (st : EngineState),
      (onProcessError msg st).numActive = st.numActive ∧
      (onProcessError msg st).numQueued = st.numQueued ∧
      (hasSub ("ENOENT").toList msg = true →
        (onProcessError msg st).binaryPath = none ∧
        (onProcessError msg st).notifications =
          st.notifications ++ [(Sev.err, pathMissingMsg)]) ∧
      (∀ (doc : DocModel) (filePath : Str) (tempFile : Option (Str × Str))
          (code : Option ℤ) (results : Str),
        (exitHandler doc filePath tempFile code results st).numActive = st.numActive - 1) := by
  intro msg st
  refine ⟨?_, ?_, ?_, ?_⟩
  · unfold onProcessError
    split <;> rfl
  · unfold onProcessError
    split <;> rfl
  · intro h
    unfold onProcessError
    rw [if_pos h]
    exact ⟨rfl, rfl⟩
  · intro doc filePath tempFile code results
    exact exitHandler_numActive doc filePath tempFile code results st

/-- C4 witness: the amended behaviour at a concrete ENOENT message and
engine state. -/
theorem c4_witness :
    (onProcessError enoentDemo sampleState).binaryPath = none ∧
    (onProcessError enoentDemo sampleState).numActive = sampleState.numActive := by
  have h := c4_error_handler_behaviour enoentDemo sampleState
  exact ⟨(h.2.2.1 (by decide)).1, h.1⟩

/-- C2: for a run whose exit code is anything other than 1, when stdout
holds at least one non-blank line (after trimming and dropping lines
starting with the exclamation marker), each such line becomes exactly one
notification whose kind is chosen by its prefix, the cached errors map is
not updated, and the published diagnostics stay exactly as they were. -/
theorem c2_tool_failure_preserves_diagnostics :
    ∀ (doc : DocModel) (filePath : Str) (tempFile : Option (Str × Str))
      (code : Option ℤ) (results : Str) (st : EngineState),
      code ≠ some 1 → toolLines results ≠ [] →
      (exitHandler doc filePath tempFile code results st).errors = st.errors ∧
      (exitHandler doc filePath tempFile code results st).diagnostics = st.diagnostics ∧
      (exitHandler doc filePath tempFile code results st).notifications =
        st.notifications ++
          (toolLines results).map (fun (p : Sev × Str) => (p.1, phpstanTag ++ p.2)) := by
  intro doc filePath tempFile code results st hcode hdata
  have hlen : (toolLines results).length > 0 := List.length_pos.mpr hdata
  cases tempFile with
  | none =>
    simp only [exitHandler]
    rw [if_pos hcode, if_pos hlen]
    exact ⟨hideStatusBar_errors _, hideStatusBar_diagnostics _, hideStatusBar_notifications _⟩
  | some t =>
    simp only [exitHandler]
    rw [if_pos hcode, if_pos hlen]
    exact ⟨hideStatusBar_errors _, hideStatusBar_diagnostics _, hideStatusBar_notifications _⟩

/-- C2 witness: the spec scenario, exit code 255 with a fatal-error line,
at a concrete engine state with one cached result. -/
theorem c2_witness :
    (exitHandler demoDoc sampleFile none (some 255) fatalDemo sampleState).errors =
      sampleState.errors ∧
    (exitHandler demoDoc sampleFile none (some 255) fatalDemo sampleState).diagnostics =
      sampleState.diagnostics ∧
    (exitHandler demoDoc sampleFile none (some 255) fatalDemo sampleState).notifications =
      sampleState.notifications ++
        (toolLines fatalDemo).map (fun (p : Sev × Str) => (p.1, phpstanTag ++ p.2)) := by
  exact c2_tool_failure_preserves_diagnostics demoDoc sampleFile none (some 255) fatalDemo
    sampleState (by decide) (by decide)

theorem hideStatusBar_documents (st : EngineState) :
    (hideStatusBar st).documents = st.documents := by
  unfold hideStatusBar; split <;> rfl

theorem setA_mem {V : Type} (m : List (Str × V)) (k : Str) (v : V) :
    ∀ p ∈ setA m k v, p = (k, v) ∨ p ∈ m := by
  induction m with
  | nil =>
    intro p hp
    simp only [setA, List.mem_singleton] at hp
    exact Or.inl hp
  | cons q rest ih =>
    obtain ⟨k0, w⟩ := q
    intro p hp
    by_cases h0 : k0 = k
    · simp only [setA, if_pos h0] at hp
      rcases List.mem_cons.mp hp with h | h
      · exact Or.inl h
      · exact Or.inr (List.mem_cons_of_mem _ h)
    · simp only [setA, if_neg h0] at hp
      rcases List.mem_cons.mp hp with h | h
      · exact Or.inr (h ▸ List.mem_cons_self _ _)
      · rcases ih p h with h1 | h1
        · exact Or.inl h1
        · exact Or.inr (List.mem_cons_of_mem _ h1)

theorem publishResults_diagnostics (doc : DocModel) (filePath results : Str)
    (st : EngineState) :
    (publishResults doc filePath results st).diagnostics =
      handleDiagnosticErrors
        ((setA st.documents doc.fileName doc).map Prod.snd)
        (((setA st.errors doc.fileName
            (parseOutput doc.fileName filePath results)).map Prod.snd).flatten)
        st.diagnostics := by
  unfold publishResults
  rw [hideStatusBar_diagnostics]

/-- Case analysis of the exit handler: either it stops before publishing
(the tool-failure early return), leaving the errors map and the
diagnostics as they were, or it publishes through an intermediate state
whose errors and documents maps are those of the input state. -/
theorem exitHandler_errors_diag (doc : DocModel) (filePath : Str)
    (tempFile : Option (Str × Str)) (code : Option ℤ) (results : Str) (st : EngineState) :
    ((exitHandler doc filePath tempFile code results st).errors = st.errors ∧
      (exitHandler doc filePath tempFile code results st).diagnostics = st.diagnostics) ∨
    (∃ st' : EngineState, st'.errors = st.errors ∧ st'.documents = st.documents ∧
      exitHandler doc filePath tempFile code results st = publishResults doc filePath results st') := by
  cases tempFile with
  | none =>
    simp only [exitHandler]
    split
    · split
      · exact Or.inl ⟨hideStatusBar_errors _, hideStatusBar_diagnostics _⟩
      · refine Or.inr ⟨_, ?_, ?_, rfl⟩
        · rw [hideStatusBar_errors]
        · rw [hideStatusBar_documents]
    · refine Or.inr ⟨_, ?_, ?_, rfl⟩
      · rfl
      · rfl
  | some t =>
    simp only [exitHandler]
    split
    · split
      · exact Or.inl ⟨hideStatusBar_errors _, hideStatusBar_diagnostics _⟩
      · refine Or.inr ⟨_, ?_, ?_, rfl⟩
        · rw [hideStatusBar_errors]
        · rw [hideStatusBar_documents]
    · refine Or.inr ⟨_, ?_, ?_, rfl⟩
      · rfl
      · rfl

/-- C10: every finding produced by a run carries the originally submitted
document's file name, and when a dirty buffer is analysed through a temp
path, that temp path never becomes a key of the errors map or of the
published diagnostic collection. -/
theorem c10_findings_keyed_to_document :
    (∀ (fileName filePath results : Str) (r : ICheckResult),
      r ∈ parseOutput fileName filePath results → r.file = fileName) ∧
    (∀ (doc : DocModel) (tempName content : Str) (code : Option ℤ)
        (results : Str) (st : EngineState),
      doc.fileName ≠ tempName →
      lookupA st.errors tempName = none →
      lookupA st.diagnostics tempName = none →
      (∀ kv ∈ st.errors, ∀ r ∈ kv.2, r.file ≠ tempName) →
      lookupA (exitHandler doc tempName (some (tempName, content)) code results st).errors
          tempName = none ∧
      lookupA (exitHandler doc tempName (some (tempName, content)) code results st).diagnostics
          tempName = none) := by
  constructor
  · intro fileName filePath results r hr
    exact parseOutput_file fileName filePath results r hr
  · intro doc tempName content code results st hne herr hdiag hstored
    rcases exitHandler_errors_diag doc tempName (some (tempName, content)) code results st with
      ⟨he, hd⟩ | ⟨st', he', hdoc', heq⟩
    · rw [he, hd]
      exact ⟨herr, hdiag⟩
    · rw [heq, publishResults_errors, publishResults_diagnostics, he']
      constructor
      · rw [lookupA_setA_ne _ _ _ _ (Ne.symm hne)]
        exact herr
      · unfold handleDiagnosticErrors
        refine lookupA_groupIns_none _ _ ?_
        intro p hp
        obtain ⟨e, he2, rfl⟩ := List.mem_map.mp hp
        obtain ⟨l, hl, hel⟩ := List.mem_flatten.mp he2
        obtain ⟨kv, hkv, rfl⟩ := List.mem_map.mp hl
        rcases setA_mem _ _ _ kv hkv with h | h
        · subst h
          have := parseOutput_file doc.fileName tempName results e hel
          simpa [this] using hne
        · exact hstored kv h e hel

/-- C10 witness: a concrete dirty-buffer run through a temp path, with a
previously cached result for another file, leaves the temp path out of
both maps. -/
theorem c10_witness :
    lookupA (exitHandler demoDirtyDoc tmpDemo (some (tmpDemo, docText demoDirtyDoc)) (some 1)
        ("x".toList) sampleState).errors tmpDemo = none ∧
    lookupA (exitHandler demoDirtyDoc tmpDemo (some (tmpDemo, docText demoDirtyDoc)) (some 1)
        ("x".toList) sampleState).diagnostics tmpDemo = none := by
  exact (c10_findings_keyed_to_document).2 demoDirtyDoc tmpDemo (docText demoDirtyDoc) (some 1)
    ("x".toList) sampleState (by decide) (by decide) (by decide) (by decide)

/-- One step of the admission protocol preserves the counting invariant. -/
theorem lock_step_inv {a b : LockState} (hstep : LockStep a b)
    (ihc : (a.running.length : ℤ) = a.numActive) (ihl : a.running.length ≤ 1) :
    (b.running.length : ℤ) = b.numActive ∧ b.running.length ≤ 1 := by
  cases hstep with
  | submit f s => exact ⟨ihc, ihl⟩
  | pollFail f s hf hp => exact ⟨ihc, ihl⟩
  | pollOk f s hf hp =>
    have hz : a.numActive = 0 := by
      unfold acquireTest at hp
      by_cases hc : a.numActive ≠ 0
      · rw [if_pos hc] at hp
        cases hp
      · exact not_not.mp hc
    have hrun : a.running = [] := by
      have hlz : (a.running.length : ℤ) = 0 := by rw [ihc, hz]
      exact List.eq_nil_of_length_eq_zero (by exact_mod_cast hlz)
    unfold acquireTest
    rw [if_neg (by simp [hz])]
    simp [hrun, hz]
  | procExit f s hf =>
    have hpos : 0 < a.running.length := List.length_pos.mpr (List.ne_nil_of_mem hf)
    have hlen : a.running.length = 1 := by omega
    obtain ⟨x, hx⟩ := List.length_eq_one.mp hlen
    have hfx : f = x := List.mem_singleton.mp (hx ▸ hf)
    subst hfx
    have hact : a.numActive = 1 := by
      rw [← ihc, hlen]
      rfl
    constructor
    · show ((a.running.erase f).length : ℤ) = a.numActive - 1
      rw [hx, hact]
      simp
    · show (a.running.erase f).length ≤ 1
      rw [hx]
      simp

/-- Invariant of the admission protocol: the active counter counts exactly
the running processes, and at most one process runs at a time. -/
theorem lock_invariant {s : LockState} (h : LockReachable s) :
    (s.running.length : ℤ) = s.numActive ∧ s.running.length ≤ 1 := by
  unfold LockReachable at h
  induction h with
  | refl => simp [lockInit]
  | tail _ hstep ih => exact lock_step_inv hstep ih.1 ih.2

/-- C1: at most one analyser process executes at any instant. In every
reachable scheduler state the active counter equals the number of running
processes, that number never exceeds one (so two files' process execution
windows cannot overlap), and the lock-acquisition poll can only succeed -
admitting the single incrementing acquirer - in a state where nothing is
running, i.e. after the previous run's exit handler has decremented the
counter back to zero. -/
theorem c1_lock_serialization :
    ∀ s : LockState, LockReachable s →
      (s.running.length : ℤ) = s.numActive ∧
      s.running.length ≤ 1 ∧
      ((acquireTest s).1 = true → s.running = []) := by
  intro s h
  obtain ⟨hc, hl⟩ := lock_invariant h
  refine ⟨hc, hl, ?_⟩
  intro hp
  have hz : s.numActive = 0 := by
    unfold acquireTest at hp
    by_cases hcnd : s.numActive ≠ 0
    · rw [if_pos hcnd] at hp
      cases hp
    · exact not_not.mp hcnd
  have : (s.running.length : ℤ) = 0 := by rw [hc, hz]
  exact List.eq_nil_of_length_eq_zero (by exact_mod_cast this)

/-- C1 witness: the state with one admitted run, reached by a submission
followed by a successful poll, satisfies the serialization invariant. -/
theorem c1_witness :
    (lockDemo.running.length : ℤ) = lockDemo.numActive ∧ lockDemo.running.length ≤ 1 := by
  have hreach : LockReachable lockDemo := by
    have h1 : LockStep lockInit { numActive := 0, waiting := [0], running := [] } := by
      have := LockStep.submit 0 lockInit
      simpa [lockInit] using this
    have h2 : LockStep { numActive := 0, waiting := [0], running := [] } lockDemo := by
      have := LockStep.pollOk 0 { numActive := 0, waiting := [0], running := [] }
        (by simp) (by decide)
      simpa [acquireTest, lockDemo] using this
    exact Relation.ReflTransGen.tail (Relation.ReflTransGen.single h1) h2
  exact ⟨(c1_lock_serialization lockDemo hreach).1, (c1_lock_serialization lockDemo hreach).2.1⟩

theorem parsedLines_single (path rest : Str) (hnp : ('\n' : Char) ∉ path)
    (hnr : ('\n' : Char) ∉ rest) (htrim : jsTrim rest = rest) (hne : rest ≠ []) :
    parsedLines path (path ++ ':' :: rest) = [rest] := by
  unfold parsedLines
  have hno : ('\n' : Char) ∉ (path ++ ':' :: rest) := by
    simp only [List.mem_append, List.mem_cons]
    push_neg
    exact ⟨hnp, by decide, hnr⟩
  rw [jsSplitChar_no_sep hno]
  simp only [List.map_cons, List.map_nil]
  rw [drop_len_succ, htrim]
  have hpos : rest.length > 0 := List.length_pos.mpr hne
  simp [List.filter_cons, hpos]

theorem parseOutput_single_valid (fileName path f msg : Str) (q : ℚ)
    (hq : jsNumber f = some q) (hcol : (':' : Char) ∉ f)
    (hnp : ('\n' : Char) ∉ path) (hnf : ('\n' : Char) ∉ f) (hnm : ('\n' : Char) ∉ msg)
    (htrim : jsTrim (f ++ ':' :: msg) = f ++ ':' :: msg)
    (hsub : hasSub autoloadSub msg = false) :
    parseOutput fileName path (path ++ ':' :: (f ++ ':' :: msg)) =
      [{ file := fileName, line := if q = 0 then 1 else q, msg := phpstanTag ++ msg }] := by
  unfold parseOutput
  rw [parsedLines_single path (f ++ ':' :: msg) hnp
    (by
      simp only [List.mem_append, List.mem_cons]
      push_neg
      exact ⟨hnf, by decide, hnm⟩)
    htrim (by simp)]
  simp only [List.map_cons, List.map_nil]
  rw [jsSplitChar_append hcol]
  simp only [parseMapFlag, List.headD_cons, List.drop_succ_cons, List.drop_zero,
    joinSep_jsSplitChar, hsub, Bool.false_eq_true, if_false, hq]
  by_cases hq0 : q = 0
  · simp [hq0, List.filterMap]
  · simp [hq0, List.filterMap, Option.some.injEq]

theorem parseOutput_single_nan (fileName path f msg : Str)
    (hq : jsNumber f = none) (hcol : (':' : Char) ∉ f)
    (hnp : ('\n' : Char) ∉ path) (hnf : ('\n' : Char) ∉ f) (hnm : ('\n' : Char) ∉ msg)
    (htrim : jsTrim (f ++ ':' :: msg) = f ++ ':' :: msg)
    (hsub : hasSub autoloadSub msg = false) :
    parseOutput fileName path (path ++ ':' :: (f ++ ':' :: msg)) = [] := by
  unfold parseOutput
  rw [parsedLines_single path (f ++ ':' :: msg) hnp
    (by
      simp only [List.mem_append, List.mem_cons]
      push_neg
      exact ⟨hnf, by decide, hnm⟩)
    htrim (by simp)]
  simp only [List.map_cons, List.map_nil]
  rw [jsSplitChar_append hcol]
  simp only [parseMapFlag, List.headD_cons, List.drop_succ_cons, List.drop_zero,
    joinSep_jsSplitChar, hsub, Bool.false_eq_true, if_false, hq]
  simp [List.filterMap]

/-- C3 counterexample: at concrete raw lines whose path matches the
analysed file, (a) a parsed line of -2 yields a Finding with line -2, not
max(1, -2) = 1, so the resulting line is not always at least 1; (b) a
leading field of 1.5, which is not a valid integer, is not discarded but
yields a Finding at line 3/2; (c) a message with leading whitespace is not
trimmed: the Finding's message keeps the inner spaces after the tag. -/
theorem c3_counterexample :
    parseOutput ("/ws/x.php").toList ("/tmp/x.php").toList ("/tmp/x.php:-2:oops").toList =
      [{ file := ("/ws/x.php").toList, line := -2, msg := ("[phpstan] oops").toList }] ∧
    max (1 : ℚ) (-2) = 1 ∧ (-2 : ℚ) ≠ 1 ∧
    parseOutput ("/ws/x.php").toList ("/tmp/x.php").toList ("/tmp/x.php:1.5:frac").toList =
      [{ file := ("/ws/x.php").toList, line := 3 / 2, msg := ("[phpstan] frac").toList }] ∧
    parseOutput ("/ws/x.php").toList ("/tmp/x.php").toList ("/tmp/x.php:5:  padded").toList =
      [{ file := ("/ws/x.php").toList, line := 5, msg := ("[phpstan]   padded").toList }] ∧
    ("[phpstan]   padded").toList ≠ phpstanTag ++ jsTrim (("  padded").toList) := by
  refine ⟨by decide, by decide, by decide, ?_, by decide, by decide⟩
  have h15 : jsNumber ("1.5").toList = some (3 / 2 : ℚ) := by
    have h : jsNumber ("1.5").toList = some ((1 : ℚ) + 5 / 10 ^ 1) := rfl
    rw [h]
    norm_num
  have hform : ("/tmp/x.php:1.5:frac").toList =
      ("/tmp/x.php").toList ++ ':' :: (("1.5").toList ++ ':' :: ("frac").toList) := by decide
  rw [hform]
  have h := parseOutput_single_valid ("/ws/x.php").toList ("/tmp/x.php").toList
    ("1.5").toList ("frac").toList (3 / 2) h15 (by decide) (by decide) (by decide)
    (by decide) (by decide) (by decide)
  rw [h]
  have hne : (3 / 2 : ℚ) ≠ 0 := by norm_num
  simp only [if_neg hne]
  have hmsg : phpstanTag ++ ("frac").toList = ("[phpstan] frac").toList := by decide
  rw [hmsg]

/-- C3 amended: for a raw-format stdout line path : field : msg whose path
is the analysed file's path, whose message is not subject to the autoload
special case, and which carries no surrounding whitespace, the parser
produces exactly one Finding whose line is the JS-parsed field value with
an exact 0 remapped to 1 (negative and fractional values are kept as they
are, so the line is not always at least 1) and whose message is the tool
tag followed by the message exactly as it appears after the first colon;
a line whose leading field parses to NaN is discarded entirely. -/
theorem c3_raw_line_parse :
    (∀ (fileName path f msg : Str) (q : ℚ),
      jsNumber f = some q → (':' : Char) ∉ f →
      ('\n' : Char) ∉ path → ('\n' : Char) ∉ f → ('\n' : Char) ∉ msg →
      jsTrim (f ++ ':' :: msg) = f ++ ':' :: msg →
      hasSub autoloadSub msg = false →
      parseOutput fileName path (path ++ ':' :: (f ++ ':' :: msg)) =
        [{ file := fileName, line := if q = 0 then 1 else q, msg := phpstanTag ++ msg }]) ∧
    (∀ (fileName path f msg : Str),
      jsNumber f = none → (':' : Char) ∉ f →
      ('\n' : Char) ∉ path → ('\n' : Char) ∉ f → ('\n' : Char) ∉ msg →
      jsTrim (f ++ ':' :: msg) = f ++ ':' :: msg →
      hasSub autoloadSub msg = false →
      parseOutput fileName path (path ++ ':' :: (f ++ ':' :: msg)) = []) := by
  constructor
  · intro fileName path f msg q hq hcol hnp hnf hnm htrim hsub
    exact parseOutput_single_valid fileName path f msg q hq hcol hnp hnf hnm htrim hsub
  · intro fileName path f msg hq hcol hnp hnf hnm htrim hsub
    exact parseOutput_single_nan fileName path f msg hq hcol hnp hnf hnm htrim hsub

/-- C3 witness: the spec scenario line at a concrete path and message, and
a concrete non-numeric leading field that is discarded. -/
theorem c3_witness :
    parseOutput ("/tmp/x.php").toList ("/tmp/x.php").toList
        (("/tmp/x.php").toList ++ ':' :: (("5").toList ++ ':' ::
          ("Variable might not be defined.").toList)) =
      [{ file := ("/tmp/x.php").toList, line := 5,
         msg := phpstanTag ++ ("Variable might not be defined.").toList }] ∧
    parseOutput ("/tmp/x.php").toList ("/tmp/x.php").toList
        (("/tmp/x.php").toList ++ ':' :: (("x").toList ++ ':' :: ("bad").toList)) = [] := by
  constructor
  · have h := c3_raw_line_parse.1 ("/tmp/x.php").toList ("/tmp/x.php").toList ("5").toList
      ("Variable might not be defined.").toList 5 (by decide) (by decide) (by decide)
      (by decide) (by decide) (by decide) (by decide)
    simpa using h
  · exact c3_raw_line_parse.2 ("/tmp/x.php").toList ("/tmp/x.php").toList ("x").toList
      ("bad").toList (by decide) (by decide) (by decide) (by decide) (by decide)
      (by decide) (by decide)

theorem parsedLines_pair (path r1 r2 : Str) (hnp : ('\n' : Char) ∉ path)
    (h1 : ('\n' : Char) ∉ r1) (h2 : ('\n' : Char) ∉ r2)
    (ht1 : jsTrim r1 = r1) (ht2 : jsTrim r2 = r2) (hne1 : r1 ≠ []) (hne2 : r2 ≠ []) :
    parsedLines path ((path ++ ':' :: r1) ++ '\n' :: (path ++ ':' :: r2)) = [r1, r2] := by
  unfold parsedLines
  have hl1 : ('\n' : Char) ∉ (path ++ ':' :: r1) := by
    simp only [List.mem_append, List.mem_cons]
    push_neg
    exact ⟨hnp, by decide, h1⟩
  have hl2 : ('\n' : Char) ∉ (path ++ ':' :: r2) := by
    simp only [List.mem_append, List.mem_cons]
    push_neg
    exact ⟨hnp, by decide, h2⟩
  rw [jsSplitChar_append hl1, jsSplitChar_no_sep hl2]
  simp only [List.map_cons, List.map_nil]
  rw [drop_len_succ, drop_len_succ, ht1, ht2]
  have hpos1 : r1.length > 0 := List.length_pos.mpr hne1
  have hpos2 : r2.length > 0 := List.length_pos.mpr hne2
  simp [List.filter_cons, hpos1, hpos2]

/-- C8: within one run's output, messages containing the autoload-failure
substring are collapsed: two consecutive such raw lines produce exactly
one synthetic Finding at line 1 carrying the autoload-replacement message,
and once the flag is set every further matching line produces no Finding
at all. -/
theorem c8_autoload_collapse :
    (∀ (fileName path f1 m1 f2 m2 : Str),
      ('\n' : Char) ∉ path → ('\n' : Char) ∉ f1 → ('\n' : Char) ∉ m1 →
      ('\n' : Char) ∉ f2 → ('\n' : Char) ∉ m2 →
      (':' : Char) ∉ f1 → (':' : Char) ∉ f2 →
      jsTrim (f1 ++ ':' :: m1) = f1 ++ ':' :: m1 →
      jsTrim (f2 ++ ':' :: m2) = f2 ++ ':' :: m2 →
      hasSub autoloadSub m1 = true → hasSub autoloadSub m2 = true →
      parseOutput fileName path
          ((path ++ ':' :: (f1 ++ ':' :: m1)) ++ '\n' :: (path ++ ':' :: (f2 ++ ':' :: m2))) =
        [{ file := fileName, line := 1, msg := phpstanTag ++ autoloadReplacement }]) ∧
    (∀ (fileName : Str) (fields : List Str) (rest : List (List Str)),
      hasSub autoloadSub (joinSep ':' (fields.drop 1)) = true →
      parseMapFlag fileName true (fields :: rest) =
        none :: parseMapFlag fileName true rest) := by
  constructor
  · intro fileName path f1 m1 f2 m2 hnp hnf1 hnm1 hnf2 hnm2 hc1 hc2 ht1 ht2 hs1 hs2
    unfold parseOutput
    rw [parsedLines_pair path (f1 ++ ':' :: m1) (f2 ++ ':' :: m2) hnp
      (by
        simp only [List.mem_append, List.mem_cons]
        push_neg
        exact ⟨hnf1, by decide, hnm1⟩)
      (by
        simp only [List.mem_append, List.mem_cons]
        push_neg
        exact ⟨hnf2, by decide, hnm2⟩)
      ht1 ht2 (by simp) (by simp)]
    simp only [List.map_cons, List.map_nil]
    rw [jsSplitChar_append hc1, jsSplitChar_append hc2]
    simp only [parseMapFlag, List.headD_cons, List.drop_succ_cons, List.drop_zero,
      joinSep_jsSplitChar, hs1, hs2, if_true]
    simp [List.filterMap]
  · intro fileName fields rest h
    simp only [parseMapFlag, h, if_true]

/-- C8 witness: two concrete consecutive autoload-failure lines collapse to
the single synthetic Finding at line 1. -/
theorem c8_witness :
    parseOutput ("/ws/a.php").toList ("/tmp/x.php").toList
        ((("/tmp/x.php").toList ++ ':' :: (("3").toList ++ ':' ::
            ("Class Foo not found while trying to analyse it").toList)) ++ '\n' ::
          (("/tmp/x.php").toList ++ ':' :: (("9").toList ++ ':' ::
            ("Class Bar not found while trying to analyse it").toList))) =
      [{ file := ("/ws/a.php").toList, line := 1, msg := phpstanTag ++ autoloadReplacement }] := by
  exact c8_autoload_collapse.1 ("/ws/a.php").toList ("/tmp/x.php").toList ("3").toList
    ("Class Foo not found while trying to analyse it").toList ("9").toList
    ("Class Bar not found while trying to analyse it").toList (by decide) (by decide)
    (by decide) (by decide) (by decide) (by decide) (by decide) (by decide) (by decide)
    (by decide) (by decide)

/-- C6 counterexample: for an open document whose addressed line has two
leading and two trailing spaces around three visible characters, the
published diagnostic's end column is the full line length 7, not the
claimed length-minus-trailing-whitespace 5: the greedy regex leaves the
trailing capture group empty, so trailing whitespace is never trimmed. -/
theorem c6_counterexample :
    handleDiagnosticErrors [demoDoc] [demoErr] [] =
      [(sampleFile,
        [{ line0 := 0, startColumn := 2, endColumn := 7,
           message := ("[phpstan] x").toList, severity := Sev.err }])] ∧
    demoLine.length - trailingWsCount demoLine = 5 ∧
    (7 : ℕ) ≠ 5 := by
  refine ⟨?_, by decide, by decide⟩
  have hfind : ([demoDoc] : List DocModel).find? (fun d => d.fileName = demoErr.file) =
      some demoDoc := by decide
  have hl : demoErr.line - (1 : ℚ) = 0 := by
    show (1 : ℚ) - 1 = 0
    norm_num
  have hdiag : diagFor [demoDoc] demoErr =
      { line0 := 0, startColumn := 2, endColumn := 7,
        message := ("[phpstan] x").toList, severity := Sev.err } := by
    unfold diagFor
    rw [hfind]
    dsimp only
    rw [hl]
    have htext : lineTextAt demoDoc 0 = demoLine := by decide
    rw [htext]
    unfold regexGroups
    decide
  calc handleDiagnosticErrors [demoDoc] [demoErr] []
      = groupIns [(demoErr.file, diagFor [demoDoc] demoErr)] := rfl
    _ = [(sampleFile,
        [{ line0 := 0, startColumn := 2, endColumn := 7,
           message := ("[phpstan] x").toList, severity := Sev.err }])] := by
        rw [hdiag]
        decide

/-- C6 amended: the renderer's output does not depend on the previously
published collection (the surface is cleared and rebuilt); for a Finding
whose file matches an open document, the diagnostic's start column is the
length of the line's leading whitespace but its end column is the full
line length (trailing whitespace is not removed, because the greedy regex
makes the trailing capture empty); for a Finding whose file matches no
open document the range falls back to columns 0 to 1; severity is always
Error in this utils revision. -/
theorem c6_render_columns :
    (∀ (documents : List DocModel) (errors : List ICheckResult)
        (oldA oldB : List (Str × List Diagnostic)),
      handleDiagnosticErrors documents errors oldA =
        handleDiagnosticErrors documents errors oldB) ∧
    (∀ (documents : List DocModel) (e : ICheckResult) (doc : DocModel),
      documents.find? (fun d => d.fileName = e.file) = some doc →
      diagFor documents e =
        { line0 := e.line - 1
          startColumn := ((lineTextAt doc (e.line - 1)).takeWhile wsChar).length
          endColumn := (lineTextAt doc (e.line - 1)).length
          message := e.msg
          severity := Sev.err }) ∧
    (∀ (documents : List DocModel) (e : ICheckResult),
      documents.find? (fun d => d.fileName = e.file) = none →
      diagFor documents e =
        { line0 := e.line - 1, startColumn := 0, endColumn := 1,
          message := e.msg, severity := Sev.err }) := by
  refine ⟨?_, ?_, ?_⟩
  · intro documents errors oldA oldB
    rfl
  · intro documents e doc h
    unfold diagFor
    rw [h]
    unfold regexGroups
    simp
  · intro documents e h
    unfold diagFor
    rw [h]

/-- C6 witness: the amended column computation at the concrete demo
document, and the 0-1 fallback when no document is open. -/
theorem c6_witness :
    diagFor [demoDoc] demoErr =
      { line0 := demoErr.line - 1
        startColumn := ((lineTextAt demoDoc (demoErr.line - 1)).takeWhile wsChar).length
        endColumn := (lineTextAt demoDoc (demoErr.line - 1)).length
        message := demoErr.msg
        severity := Sev.err } ∧
    diagFor [] demoErr =
      { line0 := demoErr.line - 1, startColumn := 0, endColumn := 1,
        message := demoErr.msg, severity := Sev.err } := by
  constructor
  · exact c6_render_columns.2.1 [demoDoc] demoErr demoDoc (by decide)
  · exact c6_render_columns.2.2 [] demoErr (by decide)

theorem activeTimer_submitDeb_le (f g : Str) (s : DebState) (hfg : f ≠ g) :
    activeTimer f (submitDeb g s) ≤ activeTimer f s := by
  unfold submitDeb
  cases hg : lookupA s.pending g with
  | some t =>
    unfold activeTimer
    dsimp only
    rw [lookupA_setA_ne _ _ _ _ hfg]
    cases hf : lookupA s.pending f with
    | none => simp
    | some u =>
      by_cases hu : u ∈ s.cancelled
      · simp [hu, List.mem_append]
      · by_cases hut : u ∈ s.cancelled ++ [t]
        · simp [hu, hut]
        · simp [hu, hut]
  | none =>
    unfold activeTimer
    dsimp only
    rw [lookupA_setA_ne _ _ _ _ hfg]

theorem fires_le_activeTimer (f : Str) :
    ∀ (es : List DebEv) (s s' : DebState), execDebList s es = some s' →
      ¬ resubmits f es → firesOf f es ≤ activeTimer f s := by
  intro es
  induction es with
  | nil =>
    intro s s' h hn
    simp [firesOf]
  | cons e rest ih =>
    intro s s' h hn
    have hrest : ¬ resubmits f rest := fun hr => hn (List.mem_cons_of_mem _ hr)
    unfold execDebList at h
    cases hE : execDeb s e with
    | none =>
      rw [hE] at h
      cases h
    | some s1 =>
      rw [hE] at h
      dsimp only at h
      cases e with
      | subEv g =>
        have hg : f ≠ g := by
          intro hh
          exact hn (by
            unfold resubmits
            rw [hh]
            exact List.mem_cons_self _ _)
        have hs1 : s1 = submitDeb g s := by
          simp only [execDeb] at hE
          exact (Option.some.injEq _ _).mp hE.symm ▸ rfl
        subst hs1
        have hle := activeTimer_submitDeb_le f g s hg
        have hfires : firesOf f (DebEv.subEv g :: rest) = firesOf f rest := by
          simp [firesOf, List.countP_cons]
        rw [hfires]
        exact le_trans (ih _ s' h hrest) hle
      | fireEv g t =>
        simp only [execDeb] at hE
        split at hE
        · next hcond =>
          have hs1 : s1 =
              { s with pending := delA s.pending g, fired := s.fired ++ [(g, t)] } := by
            exact ((Option.some.injEq _ _).mp hE).symm
          subst hs1
          by_cases hgf : g = f
          · subst hgf
            have hfires : firesOf g (DebEv.fireEv g t :: rest) = firesOf g rest + 1 := by
              simp [firesOf, List.countP_cons]
            have hat : activeTimer g s = 1 := by
              unfold activeTimer
              rw [hcond.1]
              simp [hcond.2]
            have hat' : activeTimer g
                { s with pending := delA s.pending g, fired := s.fired ++ [(g, t)] } = 0 := by
              unfold activeTimer
              dsimp only
              rw [lookupA_delA_self]
            have hrec := ih _ s' h hrest
            rw [hat'] at hrec
            rw [hfires, hat]
            omega
          · have hg : f ≠ g := fun hh => hgf hh.symm
            have hfires : firesOf f (DebEv.fireEv g t :: rest) = firesOf f rest := by
              simp [firesOf, List.countP_cons, hgf]
            have hat : activeTimer f
                { s with pending := delA s.pending g, fired := s.fired ++ [(g, t)] } =
                activeTimer f s := by
              unfold activeTimer
              dsimp only
              rw [lookupA_delA_ne _ _ _ hg]
            have hrec := ih _ s' h hrest
            rw [hat] at hrec
            rw [hfires]
            exact hrec
        · cases hE

/-- C9: submitting the same file twice within the debounce window yields
exactly one analyser invocation. After two submissions of a file with no
timer pending before, the first submission's timer is among the cancelled
ones and the surviving pending timer is the second one; along any
subsequent event run that does not re-submit the file, at most one fire of
that file can execute; and the single fire of the surviving timer is a
valid run. -/
theorem c9_debounce_single_invocation :
    ∀ (s : DebState) (f : Str),
      lookupA s.pending f = none →
      (∀ t ∈ s.cancelled, t < s.nextId) →
      (submitDeb f (submitDeb f s)).cancelled = s.cancelled ++ [s.nextId] ∧
      lookupA (submitDeb f (submitDeb f s)).pending f = some (s.nextId + 1) ∧
      (∀ (es : List DebEv) (s' : DebState),
        execDebList (submitDeb f (submitDeb f s)) es = some s' →
        ¬ resubmits f es → firesOf f es ≤ 1) ∧
      (execDebList (submitDeb f (submitDeb f s)) [DebEv.fireEv f (s.nextId + 1)]).isSome := by
  intro s f hnone hfresh
  have h1 : submitDeb f s =
      { s with pending := setA s.pending f s.nextId, nextId := s.nextId + 1 } := by
    unfold submitDeb
    rw [hnone]
  have h2 : submitDeb f (submitDeb f s) =
      { s with
        cancelled := s.cancelled ++ [s.nextId]
        pending := setA (setA s.pending f s.nextId) f (s.nextId + 1)
        nextId := s.nextId + 2 } := by
    rw [h1]
    unfold submitDeb
    dsimp only
    rw [lookupA_setA_self]
  have hpend : lookupA (submitDeb f (submitDeb f s)).pending f = some (s.nextId + 1) := by
    rw [h2]
    dsimp only
    rw [lookupA_setA_self]
  have hnocanc : s.nextId + 1 ∉ s.cancelled ++ [s.nextId] := by
    intro hmem
    rcases List.mem_append.mp hmem with hmem | hmem
    · exact absurd (hfresh _ hmem) (by omega)
    · have := List.mem_singleton.mp hmem
      omega
  have hat : activeTimer f (submitDeb f (submitDeb f s)) = 1 := by
    unfold activeTimer
    rw [hpend]
    rw [h2]
    simp only
    rw [if_neg hnocanc]
  refine ⟨by rw [h2], hpend, ?_, ?_⟩
  · intro es s' hexec hnores
    have := fires_le_activeTimer f es _ s' hexec hnores
    rw [hat] at this
    exact this
  · unfold execDebList execDeb
    dsimp only
    rw [if_pos ⟨hpend, by rw [h2]; exact hnocanc⟩]
    simp [execDebList]

/-- C9 witness: two submissions of a concrete file from the empty debounce
state cancel timer 0, leave timer 1 pending, and firing timer 1 is a valid
run. -/
theorem c9_witness :
    (submitDeb sampleFile (submitDeb sampleFile debEmpty)).cancelled = [0] ∧
    lookupA (submitDeb sampleFile (submitDeb sampleFile debEmpty)).pending sampleFile = some 1 ∧
    (execDebList (submitDeb sampleFile (submitDeb sampleFile debEmpty))
        [DebEv.fireEv sampleFile 1]).isSome := by
  have h := c9_debounce_single_invocation debEmpty sampleFile (by decide) (by simp [debEmpty])
  exact ⟨h.1, h.2.1, h.2.2.2⟩

end VsPhpstan
